import Mathlib

/-!
Shallow embedding of `src/ocr_engine.py` (OCR-based PDF text extraction).

External collaborators (PyMuPDF page objects, pytesseract, the file system)
are modelled as data supplied by the environment:
  * a `Page` carries the outcome of `page.get_text("text")` and the outcome
    of the rasterize-and-OCR path (`get_pixmap` / `image_to_data`), each of
    which may raise (`Except Unit`);
  * the file system is a map from paths to file contents;
  * `World.openDoc` is what `fitz.open` yields per input path, and the
    Boolean failure flags say whether `os.makedirs` / `open(...,"w")` raise.
Confidence scores (Python `float` averages of `int` token confidences) are
modelled exactly in `ℚ`.  Python string primitives (`strip`, `lower`,
`endswith`, `len`) are modelled over the character list of the string.
-/

set_option linter.unusedVariables false

/-- Python `s.strip()`: remove whitespace from both ends. -/
def pyStrip (s : String) : String :=
  String.mk (((s.toList.dropWhile Char.isWhitespace).reverse.dropWhile
    Char.isWhitespace).reverse)

/-- Python `s.lower()`. -/
def pyLower (s : String) : String := String.mk (s.toList.map Char.toLower)

/-- One token row of `pytesseract.image_to_data` output: `data["text"][i]`
and `int(data["conf"][i])`. -/
structure OcrToken where
  text : String
  conf : Int
  deriving DecidableEq, Repr

deriving instance DecidableEq for Except

/-- A page of an opened document: the text layer returned by
`page.get_text("text")` (which may raise) and the outcome of the
rasterize-then-OCR path, as the token table OCR would produce
(`Except.error` if `get_pixmap` / `Image.frombytes` / tesseract raises). -/
structure Page where
  nativeText : Except Unit String
  raster : Except Unit (List OcrToken)
  deriving DecidableEq, Repr

/-- An opened PDF document: its ordered pages (`doc.load_page 0 .. n-1`). -/
structure Document where
  pages : List Page
  deriving DecidableEq, Repr

/-- Embedding of `is_scanned_page` (source lines 18-26): the page is treated
as scanned iff its stripped text layer is shorter than the threshold. -/
def is_scanned_page (text : String) (text_threshold : Nat := 30) : Bool :=
  if (pyStrip text).length < text_threshold then true else false

/-- The accumulation loop of `ocr_image` (source lines 34-42): walk the token
rows in order; a row whose stripped text is nonempty appends that stripped
text and its confidence. -/
def ocrLoop : List OcrToken → List String × List Int → List String × List Int
  | [], acc => acc
  | tk :: rest, (texts, confidences) =>
      let txt := pyStrip tk.text
      if txt ≠ "" then ocrLoop rest (texts ++ [txt], confidences ++ [tk.conf])
      else ocrLoop rest (texts, confidences)

/-- Embedding of `ocr_image` (source lines 29-45): join surviving token
texts with single spaces; the average confidence is `sum/len` over the
surviving tokens, `0.0` when none survive. -/
def ocr_image (data : List OcrToken) (lang : String := "eng") : String × ℚ :=
  let (texts, confidences) := ocrLoop data ([], [])
  let avg_conf : ℚ :=
    if confidences.length ≠ 0 then
      (confidences.map (fun c : Int => (c : ℚ))).sum / confidences.length
    else 0
  (String.intercalate " " texts, avg_conf)

/-- Result of processing one page: extracted text and the optional OCR
confidence (the `text`/`conf` pair of source lines 71-79). -/
structure PageResult where
  text : String
  conf : Option ℚ
  deriving DecidableEq, Repr

/-- The body of the per-page `try:` block (source lines 70-80): classify via
`is_scanned_page` (default threshold 30); a scanned page goes through
rasterization and `ocr_image`, any other page takes its text layer with no
confidence.  A raise anywhere inside the block is the `Except.error` case. -/
def processPage (page : Page) (lang : String := "eng") : Except Unit PageResult :=
  match page.nativeText with
  | .error e => .error e
  | .ok nt =>
      if is_scanned_page nt then
        match page.raster with
        | .error e => .error e
        | .ok tokens =>
            let (text, conf) := ocr_image tokens lang
            .ok ⟨text, some conf⟩
      else
        .ok ⟨nt, none⟩

/-- The page loop of `extract_text_from_pdf` (source lines 67-86): pages are
processed in order, a successful page appends its text to `results`, and a
raise is caught and logged — nothing is appended and the loop continues. -/
def extractLoop (pages : List Page) (lang : String) (results : List String) :
    List String :=
  match pages with
  | [] => results
  | page :: rest =>
      match processPage page lang with
      | .ok r => extractLoop rest lang (results ++ [r.text])
      | .error _ => extractLoop rest lang results

/-- Source line 87: `full_text = "\n\n".join(results)` over a document's
pages. -/
def documentFullText (pages : List Page) (lang : String := "eng") : String :=
  String.intercalate "\n\n" (extractLoop pages lang [])

/-- The file system: a map from paths to file contents. -/
def FS := String → Option String

/-- Opening a path in `"w"` mode and writing: the file is truncated and
replaced, so the path maps to exactly the written content afterwards. -/
def FS.write (fs : FS) (path content : String) : FS :=
  fun p => if p = path then some content else fs p

/-- The environment: what `fitz.open` yields per input path, and whether
`os.makedirs` (source line 64) resp. the output `open(...,"w")`
(source line 89) raise. -/
structure World where
  openDoc : String → Except Unit Document
  makedirsFails : Bool
  writeFails : Bool

/-- Embedding of `extract_text_from_pdf` (source lines 48-95).  A
container-open failure is caught and the function returns `""` at once.
`os.makedirs` runs outside any `try`, so its raise propagates
(`Except.error`).  The page loop and the join produce `full_text`; the
write is attempted, a write failure is caught, and `full_text` is returned
either way. -/
def extract_text_from_pdf (w : World) (input_path output_path : String)
    (lang : String := "eng") (fs : FS) : Except Unit (String × FS) :=
  match w.openDoc input_path with
  | .error _ => .ok ("", fs)
  | .ok doc =>
      if w.makedirsFails then .error ()
      else
        let full_text := documentFullText doc.pages lang
        if w.writeFails then .ok (full_text, fs)
        else .ok (full_text, fs.write output_path full_text)

/-- Python `os.path.basename`: the part after the last `/`. -/
def basename (s : String) : String :=
  String.mk ((s.toList.reverse.takeWhile (fun c => c ≠ '/')).reverse)

/-- Python `os.path.join` for the shapes used here: `dir + "/" + name`. -/
def joinPath (a b : String) : String := a ++ "/" ++ b

/-- Python `os.path.splitext(s)[0]`: drop the extension at the last dot,
provided a non-dot character precedes that dot (leading dots never
split). -/
def splitextStem (s : String) : String :=
  let cs := s.toList
  match cs.reverse.findIdx? (fun c => c = '.') with
  | none => s
  | some j =>
      let i := cs.length - 1 - j
      if (cs.take i).any (fun c => c ≠ '.') then String.mk (cs.take i) else s

/-- Python `fname.lower().endswith(".pdf")`: the reversed lower-cased
character list starts with `f`, `d`, `p`, `.`. -/
def endsWithPdf (s : String) : Bool :=
  match (pyLower s).toList.reverse with
  | 'f' :: 'd' :: 'p' :: '.' :: _ => true
  | _ => false

/-- The output path derived for one PDF file name (source lines 112
and 117): `output_dir/<stem>.txt`. -/
def outTxtPath (output_dir fname : String) : String :=
  joinPath output_dir (splitextStem fname ++ ".txt")

/-- What `os.path.isdir` / `os.path.isfile` report for the input path: a
directory together with its `os.listdir` listing, an existing file, or
neither. -/
inductive InputKind where
  | dir (listing : List String)
  | file
  | missing
  deriving DecidableEq

/-- The `for fname in os.listdir(input_path)` loop of `process_input`
(source lines 109-114): each `.pdf` entry (case-insensitive) is extracted
and its `in_pdf ↦ text` pair recorded, in listing order; other entries are
skipped.  An uncaught raise from `extract_text_from_pdf` propagates. -/
def processDirLoop (w : World) (input_path output_dir lang : String) :
    List String → FS → Except Unit (List (String × String) × FS)
  | [], fs => .ok ([], fs)
  | fname :: rest, fs =>
      if endsWithPdf fname then
        let in_pdf := joinPath input_path fname
        match extract_text_from_pdf w in_pdf (outTxtPath output_dir fname) lang fs with
        | .error e => .error e
        | .ok (text, fs') =>
            match processDirLoop w input_path output_dir lang rest fs' with
            | .error e => .error e
            | .ok (extracted, fs'') => .ok ((in_pdf, text) :: extracted, fs'')
      else processDirLoop w input_path output_dir lang rest fs

/-- Embedding of `process_input` (source lines 98-122): a directory is
iterated; a `.pdf` file becomes a singleton mapping; anything else is
logged as invalid input and yields the empty mapping. -/
def process_input (w : World) (input_path : String) (kind : InputKind)
    (output_dir : String) (lang : String := "eng") (fs : FS) :
    Except Unit (List (String × String) × FS) :=
  match kind with
  | .dir listing => processDirLoop w input_path output_dir lang listing fs
  | .file =>
      if endsWithPdf input_path then
        let fname := basename input_path
        match extract_text_from_pdf w input_path (outTxtPath output_dir fname) lang fs with
        | .error e => .error e
        | .ok (text, fs') => .ok ([(input_path, text)], fs')
      else .ok ([], fs)
  | .missing => .ok ([], fs)

/-! ### Concrete fixtures used by counterexamples and witnesses -/

/-- A text layer comfortably above the 30-character threshold. -/
def longText : String := "The quick brown fox jumps over the lazy dog"

/-- A second above-threshold text layer. -/
def longText2 : String := "Pack my box with five dozen liquor jugs"

/-- A native-text page: its text layer passes the threshold, OCR unused. -/
def pageNative : Page := ⟨.ok longText, .ok []⟩

/-- A second native-text page. -/
def pageNative2 : Page := ⟨.ok longText2, .ok []⟩

/-- A page whose rasterize-and-OCR path raises: empty text layer, so it is
classified scanned, and `get_pixmap`/OCR then throws. -/
def pageErr : Page := ⟨.ok "", .error ()⟩

/-- A token table with one blank token between two real ones. -/
def scanTokens : List OcrToken := [⟨"hello", 90⟩, ⟨"  ", 50⟩, ⟨"world", 80⟩]

/-- A scanned page carrying `scanTokens`. -/
def pageScan : Page := ⟨.ok "", .ok scanTokens⟩

/-- One-page documents over the fixture pages. -/
def docA : Document := ⟨[pageNative]⟩

/-- A second one-page native document. -/
def docB : Document := ⟨[pageNative2]⟩

/-- A one-page scanned document. -/
def docScan : Document := ⟨[pageScan]⟩

/-- The empty file system. -/
def fsEmpty : FS := fun _ => none

/-- An opener for a directory `in` holding two readable documents `a.pdf`
and `b.pdf`; every other path (e.g. `in/bad.pdf`) fails to open. -/
def openAB : String → Except Unit Document := fun p =>
  if p = joinPath "in" "a.pdf" then .ok docA
  else if p = joinPath "in" "b.pdf" then .ok docB
  else .error ()

/-- The healthy world: `openAB`, no I/O failures. -/
def worldAB : World := ⟨openAB, false, false⟩

/-- Same opener, but `os.makedirs` raises. -/
def worldMkdirFail : World := ⟨openAB, true, false⟩

/-- Same opener, but the output-file write raises. -/
def worldWriteFail : World := ⟨openAB, false, true⟩

/-- A world in which nothing opens and every directory/file I/O raises. -/
def worldNoOpen : World := ⟨fun _ => .error (), true, true⟩

/-! ### Helper lemmas about the loops -/

/-- The page loop is the accumulator followed by the loop started empty. -/
theorem extractLoop_append (pages : List Page) (lang : String) :
    ∀ results, extractLoop pages lang results =
      results ++ extractLoop pages lang [] := by
  induction pages with
  | nil => intro results; simp [extractLoop]
  | cons page rest ih =>
      intro results
      cases h : processPage page lang with
      | ok r =>
          simp only [extractLoop, h, List.nil_append]
          rw [ih (results ++ [r.text]), ih [r.text]]
          simp
      | error e =>
          simp only [extractLoop, h]
          exact ih results

/-- Closed form of the page loop: the texts of exactly the pages whose
processing succeeds, in page order. -/
theorem extractLoop_eq_filterMap (pages : List Page) (lang : String) :
    extractLoop pages lang [] =
      pages.filterMap (fun p => (processPage p lang).toOption.map PageResult.text) := by
  induction pages with
  | nil => simp [extractLoop]
  | cons page rest ih =>
      cases h : processPage page lang with
      | ok r =>
          simp only [extractLoop, h, List.nil_append]
          rw [extractLoop_append rest lang [r.text], ih]
          simp [h, Except.toOption]
      | error e =>
          simp only [extractLoop, h]
          rw [ih]
          simp [h, Except.toOption]

/-- The surviving tokens of an OCR token table: stripped text and
confidence of each row whose stripped text is nonempty. -/
def survivingTokens (data : List OcrToken) : List (String × Int) :=
  data.filterMap (fun tk =>
    if pyStrip tk.text = "" then none else some (pyStrip tk.text, tk.conf))

/-- Closed form of the `ocr_image` loop: it appends the surviving texts and
the surviving confidences to the accumulators. -/
theorem ocrLoop_eq (data : List OcrToken) :
    ∀ ts cs, ocrLoop data (ts, cs) =
      (ts ++ (survivingTokens data).map Prod.fst,
       cs ++ (survivingTokens data).map Prod.snd) := by
  induction data with
  | nil => intro ts cs; simp [ocrLoop, survivingTokens]
  | cons tk rest ih =>
      intro ts cs
      by_cases h : pyStrip tk.text = ""
      · simp [ocrLoop, h, survivingTokens, ih]
      · simp [ocrLoop, h, survivingTokens, ih]

/-! ### C4 — classification boundary -/

/-- C4: classification compares the stripped native-text length with the
threshold (default 30) via strict less-than, so a page whose stripped
length equals the threshold is native text (no OCR) and one whose stripped
length is below the threshold (in particular `threshold - 1`) is
scanned. -/
theorem C4_classification_boundary (s : String) (t : Nat) :
    (is_scanned_page s t = true ↔ (pyStrip s).length < t)
    ∧ ((pyStrip s).length = t → is_scanned_page s t = false)
    ∧ ((pyStrip s).length < t → is_scanned_page s t = true) := by
  refine ⟨?_, ?_, ?_⟩
  · simp [is_scanned_page]
  · intro h
    simp [is_scanned_page, h]
  · intro h
    simp [is_scanned_page, h]

/-- C4 witness: a 30-character page is native text at threshold 30, a
29-character page is scanned. -/
theorem C4_classification_boundary_witness :
    is_scanned_page "123456789012345678901234567890" 30 = false
    ∧ is_scanned_page "12345678901234567890123456789" 30 = true :=
  ⟨(C4_classification_boundary "123456789012345678901234567890" 30).2.1 (by decide),
   (C4_classification_boundary "12345678901234567890123456789" 30).2.2 (by decide)⟩

/-! ### C5 — OCR token filtering, text join, confidence -/

/-- C5: `ocr_image` discards tokens whose stripped text is empty, joins the
surviving tokens with single spaces, and reports the arithmetic mean of the
surviving tokens' confidences (exactly `0` when none survive); and a page
classified as native text produces a `PageResult` with no confidence
value. -/
theorem C5_token_filter_and_confidence :
    (∀ (data : List OcrToken) (lang : String),
        (ocr_image data lang).1 =
          String.intercalate " " ((survivingTokens data).map Prod.fst)
        ∧ (ocr_image data lang).2 =
            (if (survivingTokens data).length = 0 then 0
             else ((survivingTokens data).map (fun x => (x.2 : ℚ))).sum /
               (survivingTokens data).length))
    ∧ (∀ (page : Page) (nt : String) (lang : String),
        page.nativeText = .ok nt → is_scanned_page nt = false →
        processPage page lang = .ok ⟨nt, none⟩) := by
  constructor
  · intro data lang
    have hloop := ocrLoop_eq data [] []
    constructor
    · simp [ocr_image, hloop]
    · simp only [ocr_image, hloop, List.nil_append]
      by_cases h : (survivingTokens data).length = 0
      · simp [h]
      · rw [if_neg h]
        have hlen : ((survivingTokens data).map Prod.snd).length =
            (survivingTokens data).length := by simp
        rw [hlen, if_pos h, List.map_map]
        rfl
  · intro page nt lang h1 h2
    simp [processPage, h1, h2]

/-- C5 witness: on a concrete token table the blank token is dropped, the
text is the space-join of the survivors, the confidence is their mean; and
a concrete native-text page yields no confidence. -/
theorem C5_token_filter_and_confidence_witness :
    processPage pageNative "eng" = .ok ⟨longText, none⟩ :=
  C5_token_filter_and_confidence.2 pageNative longText "eng" rfl (by decide)

/-! ### C1 — what a failed page contributes to the joined output -/

/-- Modelled from the spec: the per-page text the spec postulates — "Any
extraction-path error is ... converted into an empty-text PageResult", so a
failed page contributes the empty string as its slot. -/
def specPageSlotText (page : Page) (lang : String := "eng") : String :=
  match processPage page lang with
  | .ok r => r.text
  | .error _ => ""

/-- C1 counterexample: in a two-page document whose first page throws
during OCR, the code's joined output is just the second page's text — it
does not contain an empty slot for the failed page joined by a blank line,
as the claim states. -/
theorem C1_counterexample :
    documentFullText [pageErr, pageNative] "eng" = longText
    ∧ String.intercalate "\n\n"
        ([pageErr, pageNative].map (fun p => specPageSlotText p "eng")) =
      "\n\n" ++ longText
    ∧ documentFullText [pageErr, pageNative] "eng" ≠
        String.intercalate "\n\n"
          ([pageErr, pageNative].map (fun p => specPageSlotText p "eng")) := by
  refine ⟨by decide, by decide, by decide⟩

/-- C1 amended: a page whose processing raises contributes no slot at all —
the joined output is the texts of exactly the successfully processed pages,
in page order, joined by a blank line — and processing continues with the
next page (a failed head page leaves the remaining pages' output
unchanged). -/
theorem C1_failed_page_contributes_no_slot :
    (∀ (pages : List Page) (lang : String),
        documentFullText pages lang =
          String.intercalate "\n\n"
            (pages.filterMap (fun p => (processPage p lang).toOption.map PageResult.text)))
    ∧ (∀ (page : Page) (pages : List Page) (lang : String),
        processPage page lang = .error () →
        documentFullText (page :: pages) lang = documentFullText pages lang) := by
  constructor
  · intro pages lang
    rw [documentFullText, extractLoop_eq_filterMap]
  · intro page pages lang h
    rw [documentFullText, documentFullText]
    simp only [extractLoop, h]

/-- C1 witness: the failing fixture page drops out of the document, the
following page is still processed. -/
theorem C1_failed_page_contributes_no_slot_witness :
    documentFullText [pageErr, pageNative] "eng" =
      documentFullText [pageNative] "eng" :=
  C1_failed_page_contributes_no_slot.2 pageErr [pageNative] "eng" rfl

/-! ### C2 — what an unopenable document contributes to the batch -/

/-- The key list of a batch outcome (document paths, in insertion order),
`none` when the batch raised. -/
def batchKeys (r : Except Unit (List (String × String) × FS)) :
    Option (List String) :=
  r.toOption.map (fun x => x.1.map Prod.fst)

/-- C2 counterexample: a directory with one unreadable PDF (`bad.pdf`) and
two valid PDFs produces a mapping with three keys — the unreadable
document is included (with empty text), not excluded, so the batch has 3
entries rather than the claimed 2. -/
theorem C2_counterexample :
    batchKeys (process_input worldAB "in" (.dir ["bad.pdf", "a.pdf", "b.pdf"])
        "out" "eng" fsEmpty) =
      some [joinPath "in" "bad.pdf", joinPath "in" "a.pdf", joinPath "in" "b.pdf"]
    ∧ (batchKeys (process_input worldAB "in" (.dir ["bad.pdf", "a.pdf", "b.pdf"])
        "out" "eng" fsEmpty)).map List.length ≠ some 2 := by
  refine ⟨by decide, by decide⟩

/-- C2 amended: a document whose container cannot be opened is still
included in the batch mapping, contributing its path with empty text; the
remaining documents are processed as usual, so one unreadable and two valid
PDFs yield exactly 3 entries (one key per `.pdf` listing entry, in listing
order) and no exception, provided directory creation does not fail. -/
theorem C2_unopenable_doc_included_empty (w : World) (ip : String)
    (listing : List String) (od lang : String) (fs : FS)
    (hmk : w.makedirsFails = false) :
    ∃ m fs',
      process_input w ip (.dir listing) od lang fs = .ok (m, fs')
      ∧ m.map Prod.fst = (listing.filter (fun f => endsWithPdf f)).map (joinPath ip)
      ∧ ∀ fname ∈ listing, endsWithPdf fname = true →
          w.openDoc (joinPath ip fname) = .error () →
          (joinPath ip fname, "") ∈ m := by
  simp only [process_input]
  induction listing generalizing fs with
  | nil => exact ⟨[], fs, rfl, by simp, by simp⟩
  | cons fname rest ih =>
      by_cases hp : endsWithPdf fname = true
      · cases hopen : w.openDoc (joinPath ip fname) with
        | ok doc =>
            cases hw : w.writeFails with
            | true =>
                obtain ⟨m, fs', hrun, hkeys, hbad⟩ := ih fs
                refine ⟨(joinPath ip fname, documentFullText doc.pages lang) :: m,
                  fs', ?_, ?_, ?_⟩
                · simp [processDirLoop, hp, extract_text_from_pdf, hopen, hmk,
                    hw, hrun]
                · simp [hp, hkeys]
                · intro g hg hgpdf hgbad
                  rcases List.mem_cons.mp hg with rfl | hg2
                  · rw [hopen] at hgbad; simp at hgbad
                  · exact List.mem_cons_of_mem _ (hbad g hg2 hgpdf hgbad)
            | false =>
                obtain ⟨m, fs', hrun, hkeys, hbad⟩ :=
                  ih (fs.write (outTxtPath od fname)
                    (documentFullText doc.pages lang))
                refine ⟨(joinPath ip fname, documentFullText doc.pages lang) :: m,
                  fs', ?_, ?_, ?_⟩
                · simp [processDirLoop, hp, extract_text_from_pdf, hopen, hmk,
                    hw, hrun]
                · simp [hp, hkeys]
                · intro g hg hgpdf hgbad
                  rcases List.mem_cons.mp hg with rfl | hg2
                  · rw [hopen] at hgbad; simp at hgbad
                  · exact List.mem_cons_of_mem _ (hbad g hg2 hgpdf hgbad)
        | error e =>
            obtain ⟨m, fs', hrun, hkeys, hbad⟩ := ih fs
            refine ⟨(joinPath ip fname, "") :: m, fs', ?_, ?_, ?_⟩
            · simp [processDirLoop, hp, extract_text_from_pdf, hopen, hrun]
            · simp [hp, hkeys]
            · intro g hg hgpdf hgbad
              rcases List.mem_cons.mp hg with rfl | hg2
              · exact List.mem_cons_self _ _
              · exact List.mem_cons_of_mem _ (hbad g hg2 hgpdf hgbad)
      · obtain ⟨m, fs', hrun, hkeys, hbad⟩ := ih fs
        refine ⟨m, fs', ?_, ?_, ?_⟩
        · simp [processDirLoop, hp, hrun]
        · simp [hp, hkeys]
        · intro g hg hgpdf hgbad
          rcases List.mem_cons.mp hg with rfl | hg2
          · exact absurd hgpdf hp
          · exact hbad g hg2 hgpdf hgbad

/-- C2 witness: the amended statement instantiated at the one-bad-two-good
directory. -/
theorem C2_unopenable_doc_included_empty_witness :
    ∃ m fs',
      process_input worldAB "in" (.dir ["bad.pdf", "a.pdf", "b.pdf"])
          "out" "eng" fsEmpty = .ok (m, fs')
      ∧ m.map Prod.fst =
          ((["bad.pdf", "a.pdf", "b.pdf"].filter (fun f => endsWithPdf f)).map
            (joinPath "in"))
      ∧ ∀ fname ∈ ["bad.pdf", "a.pdf", "b.pdf"], endsWithPdf fname = true →
          worldAB.openDoc (joinPath "in" fname) = .error () →
          (joinPath "in" fname, "") ∈ m :=
  C2_unopenable_doc_included_empty worldAB "in" ["bad.pdf", "a.pdf", "b.pdf"]
    "out" "eng" fsEmpty rfl

/-! ### C3 — page order and the blank-line join -/

/-- Reduction of `Except.toOption` on a success. -/
theorem except_toOption_ok {α : Type _} (r : α) :
    (Except.ok r : Except Unit α).toOption = some r := rfl

/-- C3: for a document that opens with pages P1..Pn, all of which process
without raising, the full text is the per-page result texts of P1..Pn in
page order joined with a blank line — whichever mix of OCR and native
extraction the pages were routed to. -/
theorem C3_page_order_preserved (pages : List Page) (lang : String)
    (h : ∀ p ∈ pages, ∃ r, processPage p lang = .ok r) :
    documentFullText pages lang =
      String.intercalate "\n\n"
        (pages.map (fun p =>
          ((processPage p lang).toOption.map PageResult.text).getD "")) := by
  rw [documentFullText, extractLoop_eq_filterMap]
  congr 1
  revert h
  induction pages with
  | nil => intro h; simp
  | cons p ps ih =>
      intro h
      obtain ⟨r, hr⟩ := h p (List.mem_cons_self p ps)
      have ihp := ih (fun q hq => h q (List.mem_cons_of_mem _ hq))
      simp [hr, except_toOption_ok, ihp]

/-- C3 witness: a document mixing one scanned (OCR) page and one native
page obeys the join-in-page-order equation. -/
theorem C3_page_order_preserved_witness :
    documentFullText [pageScan, pageNative] "eng" =
      String.intercalate "\n\n"
        ([pageScan, pageNative].map (fun p =>
          ((processPage p "eng").toOption.map PageResult.text).getD "")) :=
  C3_page_order_preserved [pageScan, pageNative] "eng" (by
    intro p hp
    rcases List.mem_cons.mp hp with rfl | hp2
    · exact ⟨_, rfl⟩
    · rcases List.mem_cons.mp hp2 with rfl | hp3
      · exact ⟨_, rfl⟩
      · exact absurd hp3 (List.not_mem_nil p))

/-! ### C6 — a write failure does not discard the in-memory text -/

/-- C6: when the document opens and directory creation succeeds but writing
the output file raises, the already-computed full text is still returned
and the file system is left untouched. -/
theorem C6_write_failure_preserves_text (w : World) (i o lang : String)
    (fs : FS) (doc : Document) (h1 : w.openDoc i = .ok doc)
    (h2 : w.makedirsFails = false) (h3 : w.writeFails = true) :
    extract_text_from_pdf w i o lang fs =
      .ok (documentFullText doc.pages lang, fs) := by
  simp [extract_text_from_pdf, h1, h2, h3]

/-- C6 witness: the fixture document still yields its text when the write
raises. -/
theorem C6_write_failure_preserves_text_witness :
    extract_text_from_pdf worldWriteFail (joinPath "in" "a.pdf") "out/a.txt"
        "eng" fsEmpty = .ok (documentFullText docA.pages "eng", fsEmpty) :=
  C6_write_failure_preserves_text worldWriteFail (joinPath "in" "a.pdf")
    "out/a.txt" "eng" fsEmpty docA (by decide) rfl rfl

/-! ### C7 — invalid input yields an empty batch, no exception -/

/-- C7: an input path that is neither a directory nor a `.pdf`-named file
(case-insensitive) makes `process_input` return the empty mapping without
raising: both for a path that is no file at all and for an existing file
without the `.pdf` suffix. -/
theorem C7_invalid_input_empty_batch :
    (∀ (w : World) (ip od lang : String) (fs : FS),
        process_input w ip .missing od lang fs = .ok ([], fs))
    ∧ (∀ (w : World) (ip od lang : String) (fs : FS),
        endsWithPdf ip = false →
        process_input w ip .file od lang fs = .ok ([], fs)) := by
  constructor
  · intro w ip od lang fs
    rfl
  · intro w ip od lang fs h
    simp [process_input, h]

/-- C7 witness: a missing path and a `.txt` file both give the empty
batch. -/
theorem C7_invalid_input_empty_batch_witness :
    process_input worldAB "notes" .missing "out" "eng" fsEmpty = .ok ([], fsEmpty)
    ∧ process_input worldAB "notes.txt" .file "out" "eng" fsEmpty =
        .ok ([], fsEmpty) :=
  ⟨C7_invalid_input_empty_batch.1 worldAB "notes" "out" "eng" fsEmpty,
   C7_invalid_input_empty_batch.2 worldAB "notes.txt" "out" "eng" fsEmpty
     (by decide)⟩

/-! ### C9 — a makedirs failure propagates and aborts the batch -/

/-- C9: `os.makedirs` runs outside every `try` block, so once a document
has opened, a directory-creation failure propagates out of
`extract_text_from_pdf`, and out of `process_input` for a directory input
containing at least one openable `.pdf` — no mapping is returned for any
document. -/
theorem C9_makedirs_failure_propagates :
    (∀ (w : World) (i o lang : String) (fs : FS) (doc : Document),
        w.openDoc i = .ok doc → w.makedirsFails = true →
        extract_text_from_pdf w i o lang fs = .error ())
    ∧ (∀ (w : World) (ip : String) (listing : List String) (od lang : String)
        (fs : FS),
        w.makedirsFails = true →
        (∃ fname doc, fname ∈ listing ∧ endsWithPdf fname = true ∧
            w.openDoc (joinPath ip fname) = .ok doc) →
        process_input w ip (.dir listing) od lang fs = .error ()) := by
  have hex : ∀ (w : World) (i o lang : String) (fs : FS) (doc : Document),
      w.openDoc i = .ok doc → w.makedirsFails = true →
      extract_text_from_pdf w i o lang fs = .error () := by
    intro w i o lang fs doc h1 h2
    simp [extract_text_from_pdf, h1, h2]
  refine ⟨hex, ?_⟩
  intro w ip listing od lang fs hmk hsome
  obtain ⟨fname, doc, hmem, hpdf, hopen⟩ := hsome
  simp only [process_input]
  revert hmem
  induction listing generalizing fs with
  | nil =>
      intro hmem
      exact absurd hmem (List.not_mem_nil fname)
  | cons g rest ih =>
      intro hmem
      rcases List.mem_cons.mp hmem with rfl | hmem2
      · simp [processDirLoop, hpdf,
          hex w (joinPath ip fname) (outTxtPath od fname) lang fs doc hopen hmk]
      · by_cases hp : endsWithPdf g = true
        · cases hopen2 : w.openDoc (joinPath ip g) with
          | ok doc2 =>
              simp [processDirLoop, hp,
                hex w (joinPath ip g) (outTxtPath od g) lang fs doc2 hopen2 hmk]
          | error e =>
              simp [processDirLoop, hp, extract_text_from_pdf, hopen2,
                ih fs hmem2]
        · simp [processDirLoop, hp]
          exact ih fs hmem2

/-- C9 witness: a directory holding one unreadable and one readable PDF
under a failing `os.makedirs` propagates the exception. -/
theorem C9_makedirs_failure_propagates_witness :
    process_input worldMkdirFail "in" (.dir ["bad.pdf", "a.pdf"]) "out" "eng"
        fsEmpty = .error () :=
  C9_makedirs_failure_propagates.2 worldMkdirFail "in" ["bad.pdf", "a.pdf"]
    "out" "eng" fsEmpty rfl ⟨"a.pdf", docA, by simp, by decide, by decide⟩

/-! ### C10 — an open failure touches nothing on disk -/

/-- C10: when the container fails to open, `extract_text_from_pdf` returns
the empty string immediately — before `os.makedirs` and before any write —
so the returned file system is exactly the input one, whatever the
directory/write failure flags say and whatever already lies at the output
path. -/
theorem C10_open_failure_leaves_fs_unchanged (w : World) (i o lang : String)
    (fs : FS) (h : w.openDoc i = .error ()) :
    extract_text_from_pdf w i o lang fs = .ok ("", fs) := by
  simp [extract_text_from_pdf, h]

/-- A file system with a pre-existing output file from an earlier run. -/
def fsPre : FS := FS.write fsEmpty "out/bad.txt" "old content"

/-- C10 witness: with every I/O failure armed and an old output file in
place, the unopenable document changes nothing. -/
theorem C10_open_failure_leaves_fs_unchanged_witness :
    extract_text_from_pdf worldNoOpen "in/bad.pdf" "out/bad.txt" "eng" fsPre =
      .ok ("", fsPre) :=
  C10_open_failure_leaves_fs_unchanged worldNoOpen "in/bad.pdf" "out/bad.txt"
    "eng" fsPre rfl

/-! ### C8 — re-running the batch is idempotent -/

/-- Applying a sequence of overwriting file writes in order. -/
def applyWrites (fs : FS) : List (String × String) → FS
  | [] => fs
  | (p, t) :: ws => applyWrites (FS.write fs p t) ws

/-- The value the last write to `q` in the sequence leaves behind, if
any. -/
def lastVal : List (String × String) → String → Option String
  | [], _ => none
  | (p, t) :: ws, q =>
      match lastVal ws q with
      | some t' => some t'
      | none => if q = p then some t else none

/-- Pointwise description of `applyWrites`: the last write to a path wins,
untouched paths keep their old content. -/
theorem applyWrites_apply (ws : List (String × String)) (fs : FS) (q : String) :
    applyWrites fs ws q =
      match lastVal ws q with
      | some t => some t
      | none => fs q := by
  induction ws generalizing fs with
  | nil => rfl
  | cons e ws ih =>
      obtain ⟨p, t⟩ := e
      show applyWrites (FS.write fs p t) ws q = _
      rw [ih]
      cases hl : lastVal ws q with
      | some t' => simp [lastVal, hl]
      | none =>
          simp only [lastVal, hl]
          by_cases hq : q = p
          · simp [FS.write, hq]
          · simp [FS.write, hq]

/-- Overwriting writes are idempotent as a sequence: replaying the same
writes on the resulting file system changes nothing. -/
theorem applyWrites_idem (ws : List (String × String)) (fs : FS) :
    applyWrites (applyWrites fs ws) ws = applyWrites fs ws := by
  funext q
  rw [applyWrites_apply, applyWrites_apply]
  cases hl : lastVal ws q <;> rfl

/-- Appending write sequences composes their application. -/
theorem applyWrites_append (ws ws' : List (String × String)) (fs : FS) :
    applyWrites fs (ws ++ ws') = applyWrites (applyWrites fs ws) ws' := by
  induction ws generalizing fs with
  | nil => rfl
  | cons e ws ih =>
      obtain ⟨p, t⟩ := e
      show applyWrites (FS.write fs p t) (ws ++ ws') = _
      rw [ih]
      rfl

/-- The file-system-free part of `extract_text_from_pdf`: the returned text
together with the write sequence the call performs. -/
def extractPure (w : World) (input_path output_path : String)
    (lang : String) : Except Unit (String × List (String × String)) :=
  match w.openDoc input_path with
  | .error _ => .ok ("", [])
  | .ok doc =>
      if w.makedirsFails then .error ()
      else
        let full_text := documentFullText doc.pages lang
        if w.writeFails then .ok (full_text, [])
        else .ok (full_text, [(output_path, full_text)])

/-- `extract_text_from_pdf` is `extractPure` with its write sequence
applied to the incoming file system: the text and the control flow do not
depend on the file system at all. -/
theorem extract_eq_pure (w : World) (i o lang : String) (fs : FS) :
    extract_text_from_pdf w i o lang fs =
      match extractPure w i o lang with
      | .error e => .error e
      | .ok (t, ws) => .ok (t, applyWrites fs ws) := by
  unfold extract_text_from_pdf extractPure
  cases w.openDoc i with
  | error e => rfl
  | ok doc =>
      cases hmk : w.makedirsFails with
      | true => rfl
      | false =>
          cases hw : w.writeFails with
          | true => rfl
          | false => rfl

/-- The file-system-free part of the directory loop. -/
def dirLoopPure (w : World) (input_path output_dir lang : String) :
    List String → Except Unit (List (String × String) × List (String × String))
  | [] => .ok ([], [])
  | fname :: rest =>
      if endsWithPdf fname then
        match extractPure w (joinPath input_path fname)
            (outTxtPath output_dir fname) lang with
        | .error e => .error e
        | .ok (text, ws) =>
            match dirLoopPure w input_path output_dir lang rest with
            | .error e => .error e
            | .ok (m, ws') =>
                .ok ((joinPath input_path fname, text) :: m, ws ++ ws')
      else dirLoopPure w input_path output_dir lang rest

/-- The directory loop is its pure part with the write sequence applied. -/
theorem dirLoop_eq_pure (w : World) (ip od lang : String)
    (listing : List String) : ∀ fs : FS,
    processDirLoop w ip od lang listing fs =
      match dirLoopPure w ip od lang listing with
      | .error e => .error e
      | .ok (m, ws) => .ok (m, applyWrites fs ws) := by
  induction listing with
  | nil => intro fs; rfl
  | cons fname rest ih =>
      intro fs
      by_cases hp : endsWithPdf fname = true
      · simp only [processDirLoop, dirLoopPure, hp, if_true]
        rw [extract_eq_pure]
        cases hext : extractPure w (joinPath ip fname) (outTxtPath od fname)
            lang with
        | error e => rfl
        | ok p =>
            obtain ⟨text, ws⟩ := p
            simp only []
            rw [ih (applyWrites fs ws)]
            cases hrest : dirLoopPure w ip od lang rest with
            | error e => rfl
            | ok q =>
                obtain ⟨m, ws'⟩ := q
                simp [applyWrites_append]
      · simp only [processDirLoop, dirLoopPure, hp, if_false]
        exact ih fs

/-- The file-system-free part of `process_input`. -/
def processPure (w : World) (input_path : String) (kind : InputKind)
    (output_dir lang : String) :
    Except Unit (List (String × String) × List (String × String)) :=
  match kind with
  | .dir listing => dirLoopPure w input_path output_dir lang listing
  | .file =>
      if endsWithPdf input_path then
        match extractPure w input_path
            (outTxtPath output_dir (basename input_path)) lang with
        | .error e => .error e
        | .ok (text, ws) => .ok ([(input_path, text)], ws)
      else .ok ([], [])
  | .missing => .ok ([], [])

/-- `process_input` is its pure part with the write sequence applied: the
returned mapping never depends on the incoming file system. -/
theorem process_input_eq_pure (w : World) (ip : String) (kind : InputKind)
    (od lang : String) (fs : FS) :
    process_input w ip kind od lang fs =
      match processPure w ip kind od lang with
      | .error e => .error e
      | .ok (m, ws) => .ok (m, applyWrites fs ws) := by
  cases kind with
  | dir listing => exact dirLoop_eq_pure w ip od lang listing fs
  | missing => rfl
  | file =>
      by_cases hp : endsWithPdf ip = true
      · simp only [process_input, processPure, hp, if_true]
        rw [extract_eq_pure]
        cases hext : extractPure w ip (outTxtPath od (basename ip)) lang with
        | error e => rfl
        | ok p => obtain ⟨text, ws⟩ := p; rfl
      · simp only [process_input, processPure, hp, if_false]
        rfl

/-- C8: batch processing is idempotent — output files are opened in
overwrite mode and the extracted texts do not depend on the file system, so
running `process_input` again on the file system a successful run produced
returns the identical mapping and leaves the identical file contents. -/
theorem C8_batch_idempotent (w : World) (ip : String) (kind : InputKind)
    (od lang : String) (fs : FS) (m : List (String × String)) (fs' : FS)
    (h : process_input w ip kind od lang fs = .ok (m, fs')) :
    process_input w ip kind od lang fs' = .ok (m, fs') := by
  rw [process_input_eq_pure] at h ⊢
  cases hp : processPure w ip kind od lang with
  | error e =>
      rw [hp] at h
      exact absurd h (by simp)
  | ok p =>
      obtain ⟨m0, ws⟩ := p
      rw [hp] at h
      injection h with h1
      injection h1 with hm hfs
      subst hm hfs
      simp only []
      rw [applyWrites_idem]

/-- C8 witness: a second run over the file system the first run produced
returns the same singleton mapping and the same file system. -/
theorem C8_batch_idempotent_witness :
    process_input worldAB "in" (.dir ["a.pdf"]) "out" "eng"
        (FS.write fsEmpty (outTxtPath "out" "a.pdf")
          (documentFullText docA.pages "eng")) =
      .ok ([(joinPath "in" "a.pdf", documentFullText docA.pages "eng")],
        FS.write fsEmpty (outTxtPath "out" "a.pdf")
          (documentFullText docA.pages "eng")) :=
  C8_batch_idempotent worldAB "in" (.dir ["a.pdf"]) "out" "eng" fsEmpty _ _ rfl
